import Mathlib

/-!
# ER-virtualizer: the graph builder, layout selector and diagram lifecycle of `static/app.js`

A shallow embedding of the functions of `src/static/app.js` and theorems about them.

Modelling conventions.

* A field of a triplet is a JavaScript value that is `undefined` (field absent), `null`
  or a string (`JsVal`).  `a || b` keeps `a` exactly when `a` is a non-empty string.
* A template literal `${v}` renders `undefined` as "undefined", `null` as "null" and a
  string as itself; an array index renders in decimal (`toString` on `Nat`).
* The `Map` of `buildElements` is an insertion-ordered list of key/value pairs.
* The browser is a record `Env`: the computed style of the document root
  (`getPropertyValue`) and the two case conversions of `String.prototype`.
-/

namespace ERVirtualizer

/-! ## JavaScript values -/

/-- A value read from a field of a parsed JSON record. -/
inductive JsVal where
  | undefined
  | null
  | str (s : String)
  deriving DecidableEq, Repr

namespace JsVal

/-- Truthiness: only a non-empty string is truthy. -/
def truthy : JsVal → Bool
  | str s => decide (s ≠ "")
  | _ => false

/-- The expression `v || d` for a string `d`. -/
def orElse (v : JsVal) (d : String) : String :=
  match v with
  | str s => if s ≠ "" then s else d
  | _ => d

/-- The text `${v}` inside a template literal. -/
def toStr : JsVal → String
  | undefined => "undefined"
  | null => "null"
  | str s => s

end JsVal

/-! ## Data model -/

/-- An input record. -/
structure Triplet where
  subject : JsVal
  subject_type : JsVal
  subject_qid : JsVal
  object : JsVal
  object_type : JsVal
  object_qid : JsVal
  predicate : JsVal
  deriving DecidableEq, Repr

/-- The object stored in `nodesMap` (lines 63-67 and 71-75). -/
structure RawNode where
  id : String
  label : JsVal
  type : String
  deriving DecidableEq, Repr

/-- The `data` of a node element (lines 89-95). -/
structure NodeData where
  id : String
  label : String
  type : String
  color : String
  displayLabel : String
  deriving DecidableEq, Repr

/-- A node element. -/
structure Node where
  data : NodeData
  deriving DecidableEq, Repr

/-- The `data` of an edge element (lines 79-84). -/
structure EdgeData where
  id : String
  source : String
  target : String
  label : String
  deriving DecidableEq, Repr

/-- An edge element. -/
structure Edge where
  data : EdgeData
  deriving DecidableEq, Repr

/-- The value returned by `buildElements`. -/
structure Elements where
  nodes : List Node
  edges : List Edge
  deriving DecidableEq, Repr

/-! ## The browser environment -/

/-- What the code reads from the browser. -/
structure Env where
  /-- The call `getComputedStyle(document.documentElement).getPropertyValue(name)`. -/
  getPropertyValue : String → String
  /-- The method `String.prototype.toLowerCase`. -/
  toLowerCase : String → String
  /-- The method `String.prototype.toUpperCase`. -/
  toUpperCase : String → String
  /-- Whether the global `cytoscape` is defined (line 137). -/
  cytoscapeLoaded : Bool

/-- White space and line terminators removed by `String.prototype.trim`. -/
def isJsWhiteSpace (c : Char) : Bool :=
  let n := c.toNat
  n = 0x09 || n = 0x0A || n = 0x0B || n = 0x0C || n = 0x0D || n = 0x20 || n = 0xA0 ||
  n = 0x1680 || (0x2000 ≤ n && n ≤ 0x200A) || n = 0x2028 || n = 0x2029 || n = 0x202F ||
  n = 0x205F || n = 0x3000 || n = 0xFEFF

/-- The method `String.prototype.trim`. -/
def trim (s : String) : String :=
  String.mk ((s.data.dropWhile isJsWhiteSpace).reverse.dropWhile isJsWhiteSpace).reverse

/-- Lines 13-18. -/
def getCssColor (env : Env) (variableName : String) (fallback : String) : String :=
  let value := trim (env.getPropertyValue variableName)
  if value ≠ "" then value else fallback

/-- What the member access `palette[k]` of line 33 finds. -/
inductive PaletteEntry where
  /-- One of the seven own keys of the literal: the custom property it names. -/
  | own (variableName : String)
  /-- A member inherited from `Object.prototype`: a function or an object, truthy. -/
  | inherited
  /-- Nothing: `undefined`. -/
  | missing
  deriving DecidableEq, Repr

/-- The names every object literal inherits from `Object.prototype`. -/
def inheritedNames : List String :=
  ["constructor", "__proto__", "hasOwnProperty", "isPrototypeOf", "propertyIsEnumerable",
   "toLocaleString", "toString", "valueOf", "__defineGetter__", "__defineSetter__",
   "__lookupGetter__", "__lookupSetter__"]

/-- The object literal of lines 24-32, read at the key `k`. -/
def palette (k : String) : PaletteEntry :=
  if k = "human" then PaletteEntry.own "--human"
  else if k = "person" then PaletteEntry.own "--human"
  else if k = "country" then PaletteEntry.own "--country"
  else if k = "gpe" then PaletteEntry.own "--country"
  else if k = "organisation" then PaletteEntry.own "--org"
  else if k = "organization" then PaletteEntry.own "--org"
  else if k = "org" then PaletteEntry.own "--org"
  else if k ∈ inheritedNames then PaletteEntry.inherited
  else PaletteEntry.missing

/-- Lines 20-35.  An inherited member is truthy, so it is what `getCssColor` receives
as the name; converted to a string it names no property, `getPropertyValue` returns
the empty string for it, and the fallback is the result. -/
def colorFor (env : Env) (type : JsVal) : String :=
  match type with
  | JsVal.str t =>
    if t = "" then getCssColor env "--node" "#38bdf8"
    else
      match palette (env.toLowerCase t) with
      | PaletteEntry.own key => getCssColor env key "#38bdf8"
      | PaletteEntry.missing => getCssColor env "--node" "#38bdf8"
      | PaletteEntry.inherited => "#38bdf8"
  | _ => getCssColor env "--node" "#38bdf8"

/-- The call `s.replace(/_/g, " ")`. -/
def replaceUnderscores (s : String) : String :=
  String.mk (s.data.map (fun c => if c = '_' then ' ' else c))

/-- Lines 37-41. -/
def formatLabel (env : Env) (label : JsVal) (type : JsVal) : String :=
  let name := label.orElse "Unknown"
  let typeLabel := env.toUpperCase (replaceUnderscores (type.orElse "entity"))
  name ++ "\n" ++ typeLabel

/-! ## The insertion-ordered map -/

/-- A JavaScript `Map` with string keys, in insertion order. -/
abbrev NodesMap := List (String × RawNode)

/-- The method `Map.prototype.has`. -/
def NodesMap.has (m : NodesMap) (k : String) : Bool :=
  m.any (fun p => p.1 == k)

/-- The method `Map.prototype.set`: an existing key keeps its position. -/
def NodesMap.set (m : NodesMap) (k : String) (v : RawNode) : NodesMap :=
  if NodesMap.has m k then m.map (fun p => if p.1 == k then (k, v) else p)
  else m ++ [(k, v)]

/-- The method `Map.prototype.values`, as an array. -/
def NodesMap.values (m : NodesMap) : List RawNode :=
  m.map Prod.snd

/-! ## buildElements -/

/-- Line 59. -/
def subjectId (triplet : Triplet) (index : Nat) : String :=
  triplet.subject_qid.orElse (triplet.subject.toStr ++ "-" ++ toString index ++ "-s")

/-- Line 60. -/
def objectId (triplet : Triplet) (index : Nat) : String :=
  triplet.object_qid.orElse (triplet.object.toStr ++ "-" ++ toString index ++ "-o")

/-- The two locals of `buildElements`. -/
structure BuildState where
  nodesMap : NodesMap
  edges : List Edge
  deriving DecidableEq, Repr

/-- Lines 62-68. -/
def addSubject (m : NodesMap) (triplet : Triplet) (index : Nat) : NodesMap :=
  if !NodesMap.has m (subjectId triplet index) then
    NodesMap.set m (subjectId triplet index)
      { id := subjectId triplet index
        label := triplet.subject
        type := triplet.subject_type.orElse "entity" }
  else m

/-- Lines 70-76. -/
def addObject (m : NodesMap) (triplet : Triplet) (index : Nat) : NodesMap :=
  if !NodesMap.has m (objectId triplet index) then
    NodesMap.set m (objectId triplet index)
      { id := objectId triplet index
        label := triplet.object
        type := triplet.object_type.orElse "entity" }
  else m

/-- Lines 78-85. -/
def mkEdge (triplet : Triplet) (index : Nat) : Edge :=
  { data :=
      { id := "e-" ++ toString index
        source := subjectId triplet index
        target := objectId triplet index
        label := triplet.predicate.orElse "" } }

/-- The callback of `triplets.forEach` (lines 58-86). -/
def forEachBody (st : BuildState) (triplet : Triplet) (index : Nat) : BuildState :=
  { nodesMap := addObject (addSubject st.nodesMap triplet index) triplet index
    edges := st.edges ++ [mkEdge triplet index] }

/-- The loop `triplets.forEach`, from index `index` on. -/
def forEachFrom : List Triplet → Nat → BuildState → BuildState
  | [], _, st => st
  | triplet :: rest, index, st => forEachFrom rest (index + 1) (forEachBody st triplet index)

/-- The callback of `.map` on lines 88-96. -/
def finishNode (env : Env) (node : RawNode) : Node :=
  { data :=
      { id := node.id
        label := node.label.orElse "Unknown"
        type := (JsVal.str node.type).orElse "entity"
        color := colorFor env (JsVal.str node.type)
        displayLabel := formatLabel env node.label (JsVal.str node.type) } }

/-- Lines 54-99. -/
def buildElements (env : Env) (triplets : List Triplet) : Elements :=
  let st := forEachFrom triplets 0 { nodesMap := [], edges := [] }
  { nodes := (NodesMap.values st.nodesMap).map (finishNode env)
    edges := st.edges }

/-! ## layoutFor -/

/-- A layout options object; a key that the literal does not have is `none`. -/
structure LayoutSpec where
  name : String
  fit : Bool
  padding : Nat
  animate : Option Bool
  nodeRepulsion : Option Nat
  idealEdgeLength : Option Nat
  nodeOverlap : Option Nat
  gravity : Option ℚ
  numIter : Option Nat
  initialTemp : Option Nat
  coolingFactor : Option ℚ
  minTemp : Option ℚ
  deriving DecidableEq, Repr

/-- The literal of line 103. -/
def gridLayout : LayoutSpec :=
  { name := "grid", fit := true, padding := 50, animate := none, nodeRepulsion := none
    idealEdgeLength := none, nodeOverlap := none, gravity := none, numIter := none
    initialTemp := none, coolingFactor := none, minTemp := none }

/-- The literal of line 106. -/
def circleLayout : LayoutSpec :=
  { name := "circle", fit := true, padding := 50, animate := none, nodeRepulsion := none
    idealEdgeLength := none, nodeOverlap := none, gravity := none, numIter := none
    initialTemp := none, coolingFactor := none, minTemp := none }

/-- The literal of lines 108-121. -/
def coseLayout : LayoutSpec :=
  { name := "cose", fit := true, padding := 80, animate := some false
    nodeRepulsion := some 9000, idealEdgeLength := some 160, nodeOverlap := some 16
    gravity := some (4 / 5), numIter := some 1200, initialTemp := some 1000
    coolingFactor := some (99 / 100), minTemp := some 1 }

/-- Lines 101-122. -/
def layoutFor (nodesCount : Nat) : LayoutSpec :=
  if nodesCount ≤ 2 then gridLayout
  else if nodesCount ≤ 4 then circleLayout
  else coseLayout

/-! ## The diagram lifecycle -/

/-- An element handed to the rendering engine. -/
inductive Element where
  | node (n : Node)
  | edge (e : Edge)
  deriving DecidableEq, Repr

/-- A live engine instance: the options of the constructor call (lines 144-194, the
static style sheet left out except for the edge colour it reads from the theme) and
what has been done to it since (lines 196-199). -/
structure Instance where
  elements : List Element
  minZoom : ℚ
  maxZoom : ℚ
  wheelSensitivity : ℚ
  autoungrabify : Bool
  autounselectify : Bool
  edgeColor : String
  layoutRun : Option LayoutSpec
  centered : Bool
  fitPadding : Option Nat
  deriving DecidableEq, Repr

/-- The mutable state the script closes over, and a trace of its calls to the engine.
The elements `exportButton` and `graphEl` are used under a null check and may be
missing; `emptyState` is dereferenced without one. -/
structure Page where
  /-- The variable `cy`. -/
  cy : Option Instance
  /-- The variable `latestTriplets`. -/
  latestTriplets : List Triplet
  /-- The last value of `graphEl.innerHTML`, when the element exists. -/
  graphEl : Option String
  /-- The value of `exportButton.disabled`, when the element exists. -/
  exportButton : Option Bool
  /-- The value of `emptyState.hidden`. -/
  emptyStateHidden : Bool
  /-- Every instance on which `destroy()` has been called, oldest first. -/
  destroyed : List Instance
  /-- The number of calls of the `cytoscape` constructor. -/
  created : Nat
  /-- The messages passed to `console.error`, oldest first. -/
  errors : List String
  deriving DecidableEq, Repr

/-- Lines 203-207. -/
def setExportAvailability (enabled : Bool) (p : Page) : Page :=
  match p.exportButton with
  | some _ => { p with exportButton := some (!enabled) }
  | none => p

/-- Lines 43-52. -/
def destroyGraph (p : Page) : Page :=
  let p1 : Page :=
    match p.cy with
    | some inst => { p with cy := none, destroyed := p.destroyed ++ [inst] }
    | none => p
  let p2 : Page :=
    match p1.graphEl with
    | some _ => { p1 with graphEl := some "" }
    | none => p1
  setExportAvailability false p2

/-- The argument of `renderGraph`: an array of triplets or anything else. -/
inductive RenderInput where
  | array (triplets : List Triplet)
  | other
  deriving DecidableEq, Repr

/-- Line 125: `Array.isArray(triplets) ? triplets : []`. -/
def RenderInput.toTriplets : RenderInput → List Triplet
  | RenderInput.array triplets => triplets
  | RenderInput.other => []

/-- Lines 144-199: construct the instance, run the layout, centre and fit. -/
def createInstance (env : Env) (els : Elements) : Instance :=
  { elements := els.nodes.map Element.node ++ els.edges.map Element.edge
    minZoom := 2 / 5
    maxZoom := 9 / 5
    wheelSensitivity := 1 / 5
    autoungrabify := false
    autounselectify := false
    edgeColor := getCssColor env "--edge" "#facc15"
    layoutRun := some (layoutFor els.nodes.length)
    centered := true
    fitPadding := some 40 }

/-- Lines 124-201. -/
def renderGraph (env : Env) (triplets : RenderInput) (p : Page) : Page :=
  let p1 : Page := { p with latestTriplets := triplets.toTriplets }
  let p2 := destroyGraph p1
  if p2.latestTriplets.length = 0 then
    setExportAvailability false { p2 with emptyStateHidden := false }
  else
    let p3 : Page := { p2 with emptyStateHidden := true }
    if !env.cytoscapeLoaded then
      { p3 with errors := p3.errors ++ ["Cytoscape.js failed to load."] }
    else
      let els := buildElements env p3.latestTriplets
      setExportAvailability true
        { p3 with cy := some (createInstance env els), created := p3.created + 1 }

/-- The state when the script has run its last line, `renderGraph([])`, on a page whose
export button starts enabled and whose placeholder starts hidden. -/
def initialPage (env : Env) : Page :=
  renderGraph env (RenderInput.array [])
    { cy := none, latestTriplets := [], graphEl := some "", exportButton := some false
      emptyStateHidden := true, destroyed := [], created := 0, errors := [] }

/-! ## exportGraph -/

/-- The call `s.replace(/[:.]/g, "-")` of line 218. -/
def replaceColonsAndDots (s : String) : String :=
  String.mk (s.data.map (fun c => if c = ':' ∨ c = '.' then '-' else c))

/-- The options of `cy.png` (line 216). -/
structure PngOptions where
  full : Bool
  scale : Nat
  bg : String
  deriving DecidableEq, Repr

/-- The anchor that is clicked (lines 217-222). -/
structure DownloadLink where
  href : String
  download : String
  deriving DecidableEq, Repr

/-- Line 220, from the result of `new Date().toISOString()`. -/
def downloadName (isoNow : String) : String :=
  "knowledge-graph-" ++ replaceColonsAndDots isoNow ++ ".png"

/-- Lines 209-227.  The snapshot `cy.png` is the engine's: `png` returns the data URL or
the error it throws; `isoNow` is the value of `new Date().toISOString()`.  The result is
the page and the link that was clicked, if any. -/
def exportGraph (env : Env) (png : Instance → PngOptions → Except String String)
    (isoNow : String) (p : Page) : Page × Option DownloadLink :=
  match p.cy with
  | none => (p, none)
  | some inst =>
    let background := getCssColor env "--bg" "#0f172a"
    match png inst { full := true, scale := 2, bg := (JsVal.str background).orElse "#0f172a" } with
    | Except.ok dataUrl => (p, some { href := dataUrl, download := downloadName isoNow })
    | Except.error _ => ({ p with errors := p.errors ++ ["Failed to export graph"] }, none)

/-! ## Concrete environments, for evaluation -/

/-- Lower case of the letters A-Z. -/
def asciiLower (s : String) : String := String.mk (s.data.map Char.toLower)

/-- Upper case of the letters a-z. -/
def asciiUpper (s : String) : String := String.mk (s.data.map Char.toUpper)

/-- A page without theme: every custom property is unset. -/
def bareEnv : Env :=
  { getPropertyValue := fun _ => ""
    toLowerCase := asciiLower
    toUpperCase := asciiUpper
    cytoscapeLoaded := true }

/-- A triplet with every field absent. -/
def Triplet.blank : Triplet :=
  { subject := JsVal.undefined, subject_type := JsVal.undefined, subject_qid := JsVal.undefined
    object := JsVal.undefined, object_type := JsVal.undefined, object_qid := JsVal.undefined
    predicate := JsVal.undefined }

/-- The example of the specification, section 8. -/
def parisTriplet : Triplet :=
  { subject := JsVal.str "Paris", subject_type := JsVal.undefined, subject_qid := JsVal.str "Q90"
    object := JsVal.str "France", object_type := JsVal.undefined, object_qid := JsVal.str "Q142"
    predicate := JsVal.str "capitalOf" }

/-! ## Specification-side definitions -/

/-- The endpoint id sequence `[subject id i, object id i, subject id i+1, ...]` of the
triplets at positions `index`, `index + 1`, ... -/
def endpointIdsFrom : List Triplet → Nat → List String
  | [], _ => []
  | triplet :: rest, index =>
    subjectId triplet index :: objectId triplet index :: endpointIdsFrom rest (index + 1)

/-- The endpoint id sequence of an input. -/
def endpointIds (triplets : List Triplet) : List String :=
  endpointIdsFrom triplets 0

/-- A sequence with every repeat of an earlier member removed. -/
def firstOccurrences : List String → List String
  | [] => []
  | x :: xs => x :: (firstOccurrences xs).filter (fun y => decide (y ≠ x))

/-- The edges of the triplets at positions `index`, `index + 1`, ..., one per triplet. -/
def edgesFrom : List Triplet → Nat → List Edge
  | [], _ => []
  | triplet :: rest, index => mkEdge triplet index :: edgesFrom rest (index + 1)

/-- The ids of the nodes of a result, in order. -/
def nodeIds (els : Elements) : List String :=
  els.nodes.map (fun n => n.data.id)

/-- The keys of the map, in insertion order. -/
def NodesMap.keys (m : NodesMap) : List String :=
  m.map Prod.fst

/-- Append `k` unless it is already there. -/
def pushNew (ks : List String) (k : String) : List String :=
  if k ∈ ks then ks else ks ++ [k]

/-! ## Definitions used in the statements and proofs -/

/-- Every value of the map carries its key as `id`. -/
def WellKeyed (m : NodesMap) : Prop :=
  ∀ p ∈ m, p.2.id = p.1

/-- The number a string of decimal digits denotes. -/
def decodeDigits (cs : List Char) : Nat :=
  cs.foldl (fun a c => 10 * a + (c.toNat - 48)) 0

/-- The role marker and the index read back from the end of a synthesized id
`<label>-<index>-<role>`: its last character, and the digits between its last two
hyphens. -/
def idTag (id : String) : Char × Nat :=
  let r := id.data.reverse
  (r.headD ' ', decodeDigits ((r.drop 2).takeWhile (fun c => decide (c ≠ '-'))).reverse)

/-- No triplet of the list carries a qid. -/
def NoQids (ts : List Triplet) : Prop :=
  ∀ t ∈ ts, t.subject_qid.truthy = false ∧ t.object_qid.truthy = false

/-- A page with a theme: the four node colours are set (with surrounding blanks, as a
style sheet leaves them), everything else is unset. -/
def themedEnv : Env :=
  { getPropertyValue := fun v =>
      if v = "--node" then " #111111" else if v = "--human" then " #222222"
      else if v = "--country" then " #333333" else if v = "--org" then " #444444 " else ""
    toLowerCase := asciiLower
    toUpperCase := asciiUpper
    cytoscapeLoaded := true }

/-- The custom property of the category of a lower-cased type, in the words of the
claim: person/human, country/gpe, organization/organisation, and the default for every
other type. -/
def claimedVariable (k : String) : String :=
  if k = "person" ∨ k = "human" then "--human"
  else if k = "country" ∨ k = "gpe" then "--country"
  else if k = "organization" ∨ k = "organisation" then "--org"
  else "--node"

/-- The custom property of the category of a lower-cased type, with the abbreviation
`org` counted as an organisation. -/
def categoryVariable (k : String) : String :=
  if k = "person" ∨ k = "human" then "--human"
  else if k = "country" ∨ k = "gpe" then "--country"
  else if k = "organization" ∨ k = "organisation" ∨ k = "org" then "--org"
  else "--node"

/-- The page after a render of the Paris example: a live instance, export enabled. -/
def activePage : Page :=
  renderGraph bareEnv (RenderInput.array [parisTriplet]) (initialPage bareEnv)

/-- An engine whose snapshot always succeeds. -/
def okPng : Instance → PngOptions → Except String String :=
  fun _ _ => Except.ok "data:image/png;base64,AAAA"

/-- One side of one triplet: what the input says about it, and the key `id` under which
`buildElements` files it. -/
structure Endpoint where
  qid : JsVal
  label : JsVal
  type : JsVal
  id : String
  deriving DecidableEq, Repr

/-- The subject side of the triplet at position `index`. -/
def subjectEndpoint (triplet : Triplet) (index : Nat) : Endpoint :=
  { qid := triplet.subject_qid, label := triplet.subject, type := triplet.subject_type
    id := subjectId triplet index }

/-- The object side of the triplet at position `index`. -/
def objectEndpoint (triplet : Triplet) (index : Nat) : Endpoint :=
  { qid := triplet.object_qid, label := triplet.object, type := triplet.object_type
    id := objectId triplet index }

/-- The endpoints in input order, subject before object within a triplet. -/
def endpointsFrom : List Triplet → Nat → List Endpoint
  | [], _ => []
  | triplet :: rest, index =>
    subjectEndpoint triplet index :: objectEndpoint triplet index
      :: endpointsFrom rest (index + 1)

/-- The endpoints of an input. -/
def endpoints (triplets : List Triplet) : List Endpoint :=
  endpointsFrom triplets 0

/-- The first endpoint in input order that carries the qid `q`. -/
def firstCarrier (triplets : List Triplet) (q : String) : Option Endpoint :=
  (endpoints triplets).find? (fun e => decide (e.qid = JsVal.str q))

/-- The first endpoint in input order that is filed under the id `q`. -/
def firstWithId (triplets : List Triplet) (q : String) : Option Endpoint :=
  (endpoints triplets).find? (fun e => decide (e.id = q))

/-- The nodes of a result that have the id `q`. -/
def nodesWithId (els : Elements) (q : String) : List Node :=
  els.nodes.filter (fun n => decide (n.data.id = q))

/-- The map entry the loop offers for an endpoint. -/
def Endpoint.entry (e : Endpoint) : String × RawNode :=
  (e.id, { id := e.id, label := e.label, type := e.type.orElse "entity" })

/-- Append an entry unless its key is already there. -/
def insertNew (m : NodesMap) (e : String × RawNode) : NodesMap :=
  if e.1 ∈ NodesMap.keys m then m else m ++ [e]

/-- Two triplets about different entities: the subject of the first has no qid, and the
qid of the subject of the second is spelled like the key synthesized for the first. -/
def collidingTriplets : List Triplet :=
  [ { subject := JsVal.str "Berlin", subject_type := JsVal.str "city"
      subject_qid := JsVal.undefined
      object := JsVal.str "Germany", object_type := JsVal.str "country"
      object_qid := JsVal.str "Q183", predicate := JsVal.str "capitalOf" },
    { subject := JsVal.str "Paris", subject_type := JsVal.str "place"
      subject_qid := JsVal.str "Berlin-0-s"
      object := JsVal.str "France", object_type := JsVal.str "country"
      object_qid := JsVal.str "Q142", predicate := JsVal.str "capitalOf" } ]

/-- Two triplets without qids whose labels repeat and hold hyphens and digits. -/
def hyphenTriplets : List Triplet :=
  [ { Triplet.blank with subject := JsVal.str "a-1", object := JsVal.str "a" },
    { Triplet.blank with subject := JsVal.str "a", object := JsVal.str "a-1" } ]

/-! ## Lemmas on the map and the loop -/

theorem has_iff_mem_keys (m : NodesMap) (k : String) :
    NodesMap.has m k = true ↔ k ∈ NodesMap.keys m := by
  simp only [NodesMap.has, NodesMap.keys, List.any_eq_true, List.mem_map, beq_iff_eq]

theorem keys_addSubject (m : NodesMap) (t : Triplet) (i : Nat) :
    NodesMap.keys (addSubject m t i) = pushNew (NodesMap.keys m) (subjectId t i) := by
  unfold addSubject pushNew
  by_cases h : NodesMap.has m (subjectId t i) = true
  · have h2 := (has_iff_mem_keys m _).1 h
    simp [h, h2]
  · have h2 : subjectId t i ∉ NodesMap.keys m := fun hm => h ((has_iff_mem_keys m _).2 hm)
    rw [if_neg h2]
    simp [h, NodesMap.set, NodesMap.keys]

theorem keys_addObject (m : NodesMap) (t : Triplet) (i : Nat) :
    NodesMap.keys (addObject m t i) = pushNew (NodesMap.keys m) (objectId t i) := by
  unfold addObject pushNew
  by_cases h : NodesMap.has m (objectId t i) = true
  · have h2 := (has_iff_mem_keys m _).1 h
    simp [h, h2]
  · have h2 : objectId t i ∉ NodesMap.keys m := fun hm => h ((has_iff_mem_keys m _).2 hm)
    rw [if_neg h2]
    simp [h, NodesMap.set, NodesMap.keys]

theorem keys_forEachFrom (ts : List Triplet) (i : Nat) (st : BuildState) :
    NodesMap.keys (forEachFrom ts i st).nodesMap
      = (endpointIdsFrom ts i).foldl pushNew (NodesMap.keys st.nodesMap) := by
  induction ts generalizing i st with
  | nil => rfl
  | cons t rest ih =>
    simp only [forEachFrom, endpointIdsFrom, List.foldl_cons]
    rw [ih]
    simp only [forEachBody, keys_addObject, keys_addSubject]

theorem edges_forEachFrom (ts : List Triplet) (i : Nat) (st : BuildState) :
    (forEachFrom ts i st).edges = st.edges ++ edgesFrom ts i := by
  induction ts generalizing i st with
  | nil => simp [forEachFrom, edgesFrom]
  | cons t rest ih =>
    simp only [forEachFrom, edgesFrom]
    rw [ih]
    simp [forEachBody]

theorem wellKeyed_addSubject (m : NodesMap) (t : Triplet) (i : Nat) (h : WellKeyed m) :
    WellKeyed (addSubject m t i) := by
  unfold addSubject
  by_cases hh : NodesMap.has m (subjectId t i) = true
  · simpa [hh] using h
  · simp only [hh, Bool.not_false, if_true, NodesMap.set, Bool.false_eq_true, if_false]
    intro p hp
    rcases List.mem_append.1 hp with hp | hp
    · exact h p hp
    · simp only [List.mem_singleton] at hp
      subst hp
      rfl

theorem wellKeyed_addObject (m : NodesMap) (t : Triplet) (i : Nat) (h : WellKeyed m) :
    WellKeyed (addObject m t i) := by
  unfold addObject
  by_cases hh : NodesMap.has m (objectId t i) = true
  · simpa [hh] using h
  · simp only [hh, Bool.not_false, if_true, NodesMap.set, Bool.false_eq_true, if_false]
    intro p hp
    rcases List.mem_append.1 hp with hp | hp
    · exact h p hp
    · simp only [List.mem_singleton] at hp
      subst hp
      rfl

theorem wellKeyed_forEachFrom (ts : List Triplet) (i : Nat) (st : BuildState)
    (h : WellKeyed st.nodesMap) : WellKeyed (forEachFrom ts i st).nodesMap := by
  induction ts generalizing i st with
  | nil => exact h
  | cons t rest ih =>
    simp only [forEachFrom]
    apply ih
    exact wellKeyed_addObject _ _ _ (wellKeyed_addSubject _ _ _ h)

theorem nodeIds_buildElements (env : Env) (ts : List Triplet) :
    nodeIds (buildElements env ts)
      = NodesMap.keys (forEachFrom ts 0 { nodesMap := [], edges := [] }).nodesMap := by
  have hw : WellKeyed (forEachFrom ts 0 { nodesMap := [], edges := [] }).nodesMap :=
    wellKeyed_forEachFrom ts 0 _ (by intro p hp; cases hp)
  simp only [nodeIds, buildElements, NodesMap.values, NodesMap.keys, List.map_map]
  apply List.map_congr_left
  intro p hp
  exact hw p hp

/-! ## Lemmas on first occurrences -/

theorem mem_firstOccurrences (l : List String) (a : String) :
    a ∈ firstOccurrences l ↔ a ∈ l := by
  induction l with
  | nil => simp [firstOccurrences]
  | cons x xs ih =>
    simp only [firstOccurrences, List.mem_cons, List.mem_filter, ih, decide_eq_true_eq]
    by_cases h : a = x
    · simp [h]
    · simp [h]

theorem nodup_firstOccurrences (l : List String) : (firstOccurrences l).Nodup := by
  induction l with
  | nil => simp [firstOccurrences]
  | cons x xs ih =>
    simp only [firstOccurrences, List.nodup_cons, List.mem_filter, decide_eq_true_eq]
    exact ⟨fun h => h.2 rfl, ih.filter _⟩

theorem firstOccurrences_of_nodup (l : List String) (h : l.Nodup) :
    firstOccurrences l = l := by
  induction l with
  | nil => rfl
  | cons x xs ih =>
    rw [List.nodup_cons] at h
    simp only [firstOccurrences, ih h.2]
    congr 1
    apply List.filter_eq_self.2
    intro a ha
    simp only [decide_eq_true_eq]
    rintro rfl
    exact h.1 ha

theorem foldl_pushNew (l acc : List String) :
    l.foldl pushNew acc = acc ++ (firstOccurrences l).filter (fun y => decide (y ∉ acc)) := by
  induction l generalizing acc with
  | nil => simp [firstOccurrences]
  | cons x xs ih =>
    simp only [List.foldl_cons, firstOccurrences]
    rw [ih]
    by_cases hx : x ∈ acc
    · simp only [pushNew, hx, if_true, List.filter_cons, not_true_eq_false, decide_False,
        Bool.false_eq_true, if_false, List.filter_filter]
      congr 1
      apply List.filter_congr
      intro y _
      by_cases hy : y ∈ acc
      · simp [hy]
      · have : y ≠ x := by rintro rfl; exact hy hx
        simp [hy, this]
    · simp only [pushNew, hx, if_false, List.filter_cons, not_false_eq_true, decide_True,
        if_true, List.filter_filter, List.append_assoc, List.singleton_append]
      congr 2
      apply List.filter_congr
      intro y _
      by_cases hy : y ∈ acc
      · simp [hy]
      · by_cases hyx : y = x
        · simp [hyx]
        · simp [hy, hyx]

theorem firstOccurrences_sample :
    firstOccurrences ["a", "b", "a", "c", "b", "a"] = ["a", "b", "c"] := by
  decide

theorem nodeIds_eq_firstOccurrences (env : Env) (ts : List Triplet) :
    nodeIds (buildElements env ts) = firstOccurrences (endpointIds ts) := by
  rw [nodeIds_buildElements, keys_forEachFrom, foldl_pushNew]
  simp [NodesMap.keys, endpointIds]

/-! ## Decimal indices and synthesized ids -/

theorem digitChar_ne_hyphen (m : Nat) (h : m < 10) : Nat.digitChar m ≠ '-' := by
  interval_cases m <;> decide

theorem digitChar_value (m : Nat) (h : m < 10) : (Nat.digitChar m).toNat - 48 = m := by
  interval_cases m <;> rfl

theorem toDigitsCore_append (f n : Nat) (ds : List Char) :
    Nat.toDigitsCore 10 f n ds = Nat.toDigitsCore 10 f n [] ++ ds := by
  induction f generalizing n ds with
  | zero => simp [Nat.toDigitsCore]
  | succ f ih =>
    simp only [Nat.toDigitsCore]
    by_cases h : n / 10 = 0
    · simp [h]
    · simp only [h, if_false]
      rw [ih (n / 10) (Nat.digitChar (n % 10) :: ds), ih (n / 10) [Nat.digitChar (n % 10)]]
      simp

theorem toDigitsCore_no_hyphen (f n : Nat) :
    ∀ c ∈ Nat.toDigitsCore 10 f n [], c ≠ '-' := by
  induction f generalizing n with
  | zero => simp [Nat.toDigitsCore]
  | succ f ih =>
    intro c hc
    simp only [Nat.toDigitsCore] at hc
    by_cases h : n / 10 = 0
    · simp only [h, if_true, List.mem_singleton] at hc
      subst hc
      exact digitChar_ne_hyphen _ (Nat.mod_lt _ (by decide))
    · simp only [h, if_false] at hc
      rw [toDigitsCore_append] at hc
      rcases List.mem_append.1 hc with hc | hc
      · exact ih _ c hc
      · simp only [List.mem_singleton] at hc
        subst hc
        exact digitChar_ne_hyphen _ (Nat.mod_lt _ (by decide))

theorem decodeDigits_snoc (cs : List Char) (c : Char) :
    decodeDigits (cs ++ [c]) = 10 * decodeDigits cs + (c.toNat - 48) := by
  simp [decodeDigits, List.foldl_append]

theorem decodeDigits_toDigitsCore (f n : Nat) (h : n < f) :
    decodeDigits (Nat.toDigitsCore 10 f n []) = n := by
  induction f generalizing n with
  | zero => exact absurd h (Nat.not_lt_zero _)
  | succ f ih =>
    simp only [Nat.toDigitsCore]
    by_cases h0 : n / 10 = 0
    · simp only [h0, if_true]
      have hn : n < 10 := by omega
      simp [decodeDigits, Nat.mod_eq_of_lt hn, digitChar_value n hn]
    · simp only [h0, if_false]
      rw [toDigitsCore_append, decodeDigits_snoc, ih (n / 10) (by omega),
        digitChar_value _ (Nat.mod_lt n (by decide))]
      omega

theorem toString_data (n : Nat) : (toString n).data = Nat.toDigits 10 n := rfl

theorem decodeDigits_toDigits (n : Nat) : decodeDigits (Nat.toDigits 10 n) = n :=
  decodeDigits_toDigitsCore (n + 1) n (Nat.lt_succ_self n)

theorem toDigits_no_hyphen (n : Nat) : ∀ c ∈ Nat.toDigits 10 n, c ≠ '-' :=
  toDigitsCore_no_hyphen (n + 1) n

theorem takeWhile_append_stop (a b : List Char) (h : ∀ c ∈ a, c ≠ '-') :
    (a ++ '-' :: b).takeWhile (fun c => decide (c ≠ '-')) = a := by
  induction a with
  | nil => simp
  | cons x xs ih =>
    have hx : x ≠ '-' := h x (List.mem_cons_self _ _)
    simp only [List.cons_append, List.takeWhile_cons, hx, ne_eq, not_false_eq_true,
      decide_True, if_true]
    rw [ih (fun c hc => h c (List.mem_cons_of_mem _ hc))]

/-- The tag of a synthesized id is its role marker and its index. -/
theorem idTag_synth (label : String) (i : Nat) (role : Char) :
    idTag (label ++ "-" ++ toString i ++ String.mk ['-', role]) = (role, i) := by
  have hd : (label ++ "-" ++ toString i ++ String.mk ['-', role]).data.reverse
      = role :: '-' :: ((Nat.toDigits 10 i).reverse ++ '-' :: label.data.reverse) := by
    simp [String.data_append, toString_data]
  unfold idTag
  simp only [hd, List.headD_cons, List.drop_succ_cons, List.drop_zero]
  rw [takeWhile_append_stop _ _ (fun c hc => toDigits_no_hyphen i c (List.mem_reverse.1 hc))]
  simp [decodeDigits_toDigits]

theorem subjectId_of_no_qid (t : Triplet) (i : Nat) (h : t.subject_qid.truthy = false) :
    subjectId t i = t.subject.toStr ++ "-" ++ toString i ++ "-s" := by
  unfold subjectId
  cases hq : t.subject_qid with
  | undefined => rfl
  | null => rfl
  | str q =>
    rw [hq] at h
    simp only [JsVal.truthy, decide_eq_false_iff_not, not_not] at h
    simp [JsVal.orElse, h]

theorem objectId_of_no_qid (t : Triplet) (i : Nat) (h : t.object_qid.truthy = false) :
    objectId t i = t.object.toStr ++ "-" ++ toString i ++ "-o" := by
  unfold objectId
  cases hq : t.object_qid with
  | undefined => rfl
  | null => rfl
  | str q =>
    rw [hq] at h
    simp only [JsVal.truthy, decide_eq_false_iff_not, not_not] at h
    simp [JsVal.orElse, h]

theorem idTag_subjectId (t : Triplet) (i : Nat) (h : t.subject_qid.truthy = false) :
    idTag (subjectId t i) = ('s', i) := by
  rw [subjectId_of_no_qid t i h]
  exact idTag_synth _ i 's'

theorem idTag_objectId (t : Triplet) (i : Nat) (h : t.object_qid.truthy = false) :
    idTag (objectId t i) = ('o', i) := by
  rw [objectId_of_no_qid t i h]
  exact idTag_synth _ i 'o'

theorem idTag_ge_of_mem (ts : List Triplet) (i : Nat) (h : NoQids ts) :
    ∀ id ∈ endpointIdsFrom ts i, i ≤ (idTag id).2 := by
  induction ts generalizing i with
  | nil => simp [endpointIdsFrom]
  | cons t rest ih =>
    have ht := h t (List.mem_cons_self _ _)
    have hr : NoQids rest := fun u hu => h u (List.mem_cons_of_mem _ hu)
    intro id hid
    simp only [endpointIdsFrom, List.mem_cons] at hid
    rcases hid with rfl | rfl | hid
    · simp [idTag_subjectId t i ht.1]
    · simp [idTag_objectId t i ht.2]
    · exact Nat.le_of_succ_le (ih (i + 1) hr id hid)

theorem nodup_endpointIdsFrom (ts : List Triplet) (i : Nat) (h : NoQids ts) :
    (endpointIdsFrom ts i).Nodup := by
  induction ts generalizing i with
  | nil => simp [endpointIdsFrom]
  | cons t rest ih =>
    have ht := h t (List.mem_cons_self _ _)
    have hr : NoQids rest := fun u hu => h u (List.mem_cons_of_mem _ hu)
    have hs := idTag_subjectId t i ht.1
    have ho := idTag_objectId t i ht.2
    simp only [endpointIdsFrom, List.nodup_cons, List.mem_cons, not_or]
    refine ⟨⟨?_, ?_⟩, ?_, ih (i + 1) hr⟩
    · intro heq
      rw [heq, ho] at hs
      have hc : 'o' = 's' := congrArg Prod.fst hs
      exact absurd hc (by decide)
    · intro hmem
      have := idTag_ge_of_mem rest (i + 1) hr _ hmem
      rw [hs] at this
      exact absurd this (by simp)
    · intro hmem
      have := idTag_ge_of_mem rest (i + 1) hr _ hmem
      rw [ho] at this
      exact absurd this (by simp)

theorem length_endpointIdsFrom (ts : List Triplet) (i : Nat) :
    (endpointIdsFrom ts i).length = 2 * ts.length := by
  induction ts generalizing i with
  | nil => rfl
  | cons t rest ih =>
    simp only [endpointIdsFrom, List.length_cons, ih]
    omega

/-! ## Lemmas on edges -/

theorem edgesFrom_eq_enumFrom (ts : List Triplet) (i : Nat) :
    edgesFrom ts i = (ts.enumFrom i).map (fun p => mkEdge p.2 p.1) := by
  induction ts generalizing i with
  | nil => rfl
  | cons t rest ih => simp [edgesFrom, List.enumFrom, ih]

theorem edges_buildElements (env : Env) (ts : List Triplet) :
    (buildElements env ts).edges = edgesFrom ts 0 := by
  simp [buildElements, edges_forEachFrom]

theorem edgesFrom_getElem (ts : List Triplet) (k i : Nat) (t : Triplet)
    (h : ts[i]? = some t) : (edgesFrom ts k)[i]? = some (mkEdge t (k + i)) := by
  induction ts generalizing k i with
  | nil => simp at h
  | cons u rest ih =>
    cases i with
    | zero =>
      simp only [List.getElem?_cons_zero, Option.some.injEq] at h
      subst h
      simp [edgesFrom]
    | succ i =>
      simp only [List.getElem?_cons_succ] at h
      have e2 : k + 1 + i = k + (i + 1) := by omega
      simp only [edgesFrom, List.getElem?_cons_succ]
      rw [← e2]
      exact ih (k + 1) i h

theorem source_target_mem_endpointIds (ts : List Triplet) (i : Nat) :
    ∀ e ∈ edgesFrom ts i,
      e.data.source ∈ endpointIdsFrom ts i ∧ e.data.target ∈ endpointIdsFrom ts i := by
  induction ts generalizing i with
  | nil => simp [edgesFrom]
  | cons t rest ih =>
    intro e he
    simp only [edgesFrom, List.mem_cons] at he
    rcases he with rfl | he
    · simp [endpointIdsFrom, mkEdge]
    · have := ih (i + 1) e he
      simp [endpointIdsFrom, this.1, this.2]

theorem endpointIdsFrom_getElem (ts : List Triplet) (k i : Nat) (t : Triplet)
    (h : ts[i]? = some t) :
    (endpointIdsFrom ts k)[2 * i]? = some (subjectId t (k + i)) ∧
    (endpointIdsFrom ts k)[2 * i + 1]? = some (objectId t (k + i)) := by
  induction ts generalizing k i with
  | nil => simp at h
  | cons u rest ih =>
    cases i with
    | zero =>
      simp only [List.getElem?_cons_zero, Option.some.injEq] at h
      subst h
      simp [endpointIdsFrom]
    | succ i =>
      simp only [List.getElem?_cons_succ] at h
      have := ih (k + 1) i h
      have e1 : 2 * (i + 1) = (2 * i) + 1 + 1 := by omega
      have e2 : k + 1 + i = k + (i + 1) := by omega
      simp only [endpointIdsFrom, e1, List.getElem?_cons_succ]
      rw [← e2]
      exact this

theorem filter_id_length (els : Elements) (a : String) :
    (els.nodes.filter (fun n => decide (n.data.id = a))).length = (nodeIds els).count a := by
  rw [nodeIds, List.count, List.countP_map, List.countP_eq_length_filter]
  congr 1

/-! ## Lemmas on colours -/

theorem getCssColor_ne_empty (env : Env) (v fb : String) (h : fb ≠ "") :
    getCssColor env v fb ≠ "" := by
  unfold getCssColor
  by_cases hv : trim (env.getPropertyValue v) ≠ ""
  · simp [hv]
  · simpa [hv] using h

theorem palette_eq_categoryVariable (k : String) (h : k ∉ inheritedNames) :
    palette k = PaletteEntry.own (categoryVariable k) ∨
    (palette k = PaletteEntry.missing ∧ categoryVariable k = "--node") := by
  unfold palette categoryVariable
  by_cases a1 : k = "human"
  · simp [a1]
  by_cases a2 : k = "person"
  · simp [a2]
  by_cases a3 : k = "country"
  · subst a3
    decide
  by_cases a4 : k = "gpe"
  · subst a4
    decide
  by_cases a5 : k = "organisation"
  · subst a5
    decide
  by_cases a6 : k = "organization"
  · subst a6
    decide
  by_cases a7 : k = "org"
  · subst a7
    decide
  simp [a1, a2, a3, a4, a5, a6, a7, h]

/-! ## The node filed under an id -/

theorem addSubject_eq_insertNew (m : NodesMap) (t : Triplet) (i : Nat) :
    addSubject m t i = insertNew m (subjectEndpoint t i).entry := by
  unfold addSubject insertNew
  by_cases h : NodesMap.has m (subjectId t i) = true
  · have h2 : (subjectEndpoint t i).entry.1 ∈ NodesMap.keys m := (has_iff_mem_keys m _).1 h
    rw [if_pos h2]
    simp [h]
  · have h2 : (subjectEndpoint t i).entry.1 ∉ NodesMap.keys m :=
      fun hm => h ((has_iff_mem_keys m _).2 hm)
    rw [if_neg h2]
    simp [h, NodesMap.set, Endpoint.entry, subjectEndpoint]

theorem addObject_eq_insertNew (m : NodesMap) (t : Triplet) (i : Nat) :
    addObject m t i = insertNew m (objectEndpoint t i).entry := by
  unfold addObject insertNew
  by_cases h : NodesMap.has m (objectId t i) = true
  · have h2 : (objectEndpoint t i).entry.1 ∈ NodesMap.keys m := (has_iff_mem_keys m _).1 h
    rw [if_pos h2]
    simp [h]
  · have h2 : (objectEndpoint t i).entry.1 ∉ NodesMap.keys m :=
      fun hm => h ((has_iff_mem_keys m _).2 hm)
    rw [if_neg h2]
    simp [h, NodesMap.set, Endpoint.entry, objectEndpoint]

theorem nodesMap_forEachFrom (ts : List Triplet) (i : Nat) (st : BuildState) :
    (forEachFrom ts i st).nodesMap
      = ((endpointsFrom ts i).map Endpoint.entry).foldl insertNew st.nodesMap := by
  induction ts generalizing i st with
  | nil => rfl
  | cons t rest ih =>
    simp only [forEachFrom, endpointsFrom, List.map_cons, List.foldl_cons]
    rw [ih]
    simp only [forEachBody, addSubject_eq_insertNew, addObject_eq_insertNew]

theorem find?_insertNew_foldl (es : List (String × RawNode)) (m : NodesMap) (k : String) :
    (es.foldl insertNew m).find? (fun p => decide (p.1 = k))
      = (m ++ es).find? (fun p => decide (p.1 = k)) := by
  induction es generalizing m with
  | nil => simp
  | cons e rest ih =>
    simp only [List.foldl_cons]
    rw [ih]
    unfold insertNew
    by_cases he : e.1 ∈ NodesMap.keys m
    · rw [if_pos he]
      simp only [List.find?_append, List.find?_cons]
      by_cases hk : e.1 = k
      · obtain ⟨p, hp, hpk⟩ := List.mem_map.1 he
        have hsome : (m.find? (fun p => decide (p.1 = k))).isSome = true := by
          rw [List.find?_isSome]
          exact ⟨p, hp, by simp [hpk, hk]⟩
        obtain ⟨v, hv⟩ := Option.isSome_iff_exists.1 hsome
        simp [hv]
      · simp [hk]
    · rw [if_neg he]
      simp

theorem filter_key_eq_find? (m : NodesMap) (k : String) (h : (NodesMap.keys m).Nodup) :
    m.filter (fun p => decide (p.1 = k)) = (m.find? (fun p => decide (p.1 = k))).toList := by
  induction m with
  | nil => rfl
  | cons p rest ih =>
    simp only [NodesMap.keys, List.map_cons, List.nodup_cons] at h
    by_cases hp : p.1 = k
    · have hnone : rest.filter (fun p => decide (p.1 = k)) = [] := by
        apply List.filter_eq_nil_iff.2
        intro a ha
        simp only [decide_eq_true_eq]
        intro hak
        exact h.1 (List.mem_map.2 ⟨a, ha, by rw [hak, hp]⟩)
      simp [List.filter_cons, List.find?_cons, hp, hnone]
    · simp only [List.filter_cons, List.find?_cons, hp, decide_False, Bool.false_eq_true,
        if_false]
      exact ih h.2

theorem finishNode_entry (env : Env) (e : Endpoint) :
    (finishNode env e.entry.2).data.id = e.id ∧
    (finishNode env e.entry.2).data.label = e.label.orElse "Unknown" ∧
    (finishNode env e.entry.2).data.type = e.type.orElse "entity" := by
  refine ⟨rfl, rfl, ?_⟩
  simp only [finishNode, Endpoint.entry, JsVal.orElse]
  cases e.type with
  | undefined => rfl
  | null => rfl
  | str s =>
    by_cases hs : s = ""
    · subst hs
      rfl
    · simp [hs]

/-- The nodes with a given id: at most one, built from the first endpoint in input
order that is filed under that id. -/
theorem nodesWithId_eq (env : Env) (ts : List Triplet) (q : String) :
    nodesWithId (buildElements env ts) q
      = ((firstWithId ts q).map (fun e => finishNode env e.entry.2)).toList := by
  have hw : WellKeyed (forEachFrom ts 0 { nodesMap := [], edges := [] }).nodesMap :=
    wellKeyed_forEachFrom ts 0 _ (by intro p hp; cases hp)
  have hnd : (NodesMap.keys (forEachFrom ts 0 { nodesMap := [], edges := [] }).nodesMap).Nodup := by
    rw [← nodeIds_buildElements env, nodeIds_eq_firstOccurrences]
    exact nodup_firstOccurrences _
  have hfilter : nodesWithId (buildElements env ts) q
      = ((forEachFrom ts 0 { nodesMap := [], edges := [] }).nodesMap.filter
          (fun p => decide (p.1 = q))).map (fun p => finishNode env p.2) := by
    simp only [nodesWithId, buildElements, NodesMap.values, List.map_map, List.filter_map]
    congr 1
    apply List.filter_congr
    intro p hp
    simp [Function.comp, finishNode, hw p hp]
  have hcomp : List.find? ((fun p : String × RawNode => decide (p.1 = q)) ∘ Endpoint.entry)
      (endpointsFrom ts 0) = List.find? (fun e => decide (e.id = q)) (endpointsFrom ts 0) := rfl
  rw [hfilter, filter_key_eq_find? _ _ hnd, nodesMap_forEachFrom, find?_insertNew_foldl,
    List.nil_append, List.find?_map, hcomp]
  unfold firstWithId endpoints
  cases (endpointsFrom ts 0).find? (fun e => decide (e.id = q)) with
  | none => rfl
  | some e => rfl

theorem find?_congr_mem {α : Type} (l : List α) (p q : α → Bool)
    (h : ∀ x ∈ l, p x = q x) : l.find? p = l.find? q := by
  induction l with
  | nil => rfl
  | cons a rest ih =>
    simp only [List.find?_cons, h a (List.mem_cons_self _ _)]
    rw [ih (fun x hx => h x (List.mem_cons_of_mem _ hx))]

theorem id_of_qid (ts : List Triplet) (i : Nat) (q : String) (hq : q ≠ "") :
    ∀ e ∈ endpointsFrom ts i, e.qid = JsVal.str q → e.id = q := by
  induction ts generalizing i with
  | nil => simp [endpointsFrom]
  | cons t rest ih =>
    intro e he hqid
    simp only [endpointsFrom, List.mem_cons] at he
    rcases he with rfl | rfl | he
    · simp only [subjectEndpoint] at hqid
      simp [subjectEndpoint, subjectId, hqid, JsVal.orElse, hq]
    · simp only [objectEndpoint] at hqid
      simp [objectEndpoint, objectId, hqid, JsVal.orElse, hq]
    · exact ih (i + 1) e he hqid

theorem idTag_ge_of_mem_endpoints (ts : List Triplet) (i : Nat) :
    ∀ e ∈ endpointsFrom ts i, e.qid.truthy = false → i ≤ (idTag e.id).2 := by
  induction ts generalizing i with
  | nil => simp [endpointsFrom]
  | cons t rest ih =>
    intro e he hq
    simp only [endpointsFrom, List.mem_cons] at he
    rcases he with rfl | rfl | he
    · simp [subjectEndpoint, idTag_subjectId t i hq]
    · simp [objectEndpoint, idTag_objectId t i hq]
    · exact Nat.le_of_succ_le (ih (i + 1) e he hq)

/-! ## The claims -/

/-- When no endpoint without the qid `q` is filed under the id `q`, there is exactly one
node with id `q`, and it has the label and type of the first endpoint that carries the
qid `q`, with the defaults `Unknown` and `entity`. -/
theorem nodesWithId_of_qid (env : Env) (ts : List Triplet) (q : String) (e : Endpoint)
    (hq : q ≠ "") (hfree : ∀ x ∈ endpoints ts, x.id = q → x.qid = JsVal.str q)
    (hc : firstCarrier ts q = some e) :
    ∃ n, nodesWithId (buildElements env ts) q = [n] ∧ n.data.id = q ∧
      n.data.label = e.label.orElse "Unknown" ∧ n.data.type = e.type.orElse "entity" := by
  have hsame : firstWithId ts q = firstCarrier ts q := by
    unfold firstWithId firstCarrier
    apply find?_congr_mem
    intro x hx
    by_cases hxq : x.qid = JsVal.str q
    · simp [hxq, id_of_qid ts 0 q hq x hx hxq]
    · have : x.id ≠ q := fun hid => hxq (hfree x hx hid)
      simp [hxq, this]
  have hid : e.id = q := by
    have := List.find?_some hc
    simp only [decide_eq_true_eq] at this
    exact id_of_qid ts 0 q hq e (List.mem_of_find?_eq_some hc) this
  refine ⟨finishNode env e.entry.2, ?_, ?_, (finishNode_entry env e).2.1,
    (finishNode_entry env e).2.2⟩
  · rw [nodesWithId_eq, hsame, hc]
    rfl
  · rw [(finishNode_entry env e).1, hid]

/-- The node `Q90` of the Paris example. -/
theorem nodesWithId_of_qid_witness :
    ∃ n, nodesWithId (buildElements bareEnv [parisTriplet]) "Q90" = [n] ∧ n.data.id = "Q90" ∧
      n.data.label = "Paris" ∧ n.data.type = "entity" :=
  nodesWithId_of_qid bareEnv [parisTriplet] "Q90" (subjectEndpoint parisTriplet 0)
    (by decide) (by decide) (by decide)

/-- C1, on the colliding input: the first endpoint that carries the qid `Berlin-0-s` is
the subject of the second triplet, labelled `Paris` of type `place`; the one node with
that id is labelled `Berlin` of type `city`, from the subject of the first triplet,
which carries no qid. -/
theorem buildElements_qid_node_shadowed :
    firstCarrier collidingTriplets "Berlin-0-s"
      = some { qid := JsVal.str "Berlin-0-s", label := JsVal.str "Paris"
               type := JsVal.str "place", id := "Berlin-0-s" } ∧
    (nodesWithId (buildElements bareEnv collidingTriplets) "Berlin-0-s").map
      (fun n => (n.data.label, n.data.type)) = [("Berlin", "city")] := by
  decide

/-- In every input, the ids synthesized for the endpoints that lack a qid are pairwise
distinct, whatever their labels are. -/
theorem synthesized_ids_nodup (ts : List Triplet) (i : Nat) :
    (((endpointsFrom ts i).filter (fun e => !e.qid.truthy)).map (fun e => e.id)).Nodup := by
  induction ts generalizing i with
  | nil => simp [endpointsFrom]
  | cons t rest ih =>
    have hrest : ∀ x ∈ ((endpointsFrom rest (i + 1)).filter (fun e => !e.qid.truthy)).map
        (fun e => e.id), i + 1 ≤ (idTag x).2 := by
      intro x hx
      obtain ⟨e, he, rfl⟩ := List.mem_map.1 hx
      rw [List.mem_filter] at he
      exact idTag_ge_of_mem_endpoints rest (i + 1) e he.1 (by simpa using he.2)
    have hs : t.subject_qid.truthy = false →
        subjectId t i ∉ ((endpointsFrom rest (i + 1)).filter (fun e => !e.qid.truthy)).map
          (fun e => e.id) := by
      intro hq hmem
      have := hrest _ hmem
      rw [idTag_subjectId t i hq] at this
      exact absurd this (by simp)
    have ho : t.object_qid.truthy = false →
        objectId t i ∉ ((endpointsFrom rest (i + 1)).filter (fun e => !e.qid.truthy)).map
          (fun e => e.id) := by
      intro hq hmem
      have := hrest _ hmem
      rw [idTag_objectId t i hq] at this
      exact absurd this (by simp)
    have hso : t.subject_qid.truthy = false → t.object_qid.truthy = false →
        subjectId t i ≠ objectId t i := by
      intro h1 h2 heq
      have e1 := idTag_subjectId t i h1
      rw [heq, idTag_objectId t i h2] at e1
      have hc : 'o' = 's' := congrArg Prod.fst e1
      exact absurd hc (by decide)
    simp only [endpointsFrom, List.filter_cons, subjectEndpoint, objectEndpoint]
    cases h1 : t.subject_qid.truthy <;> cases h2 : t.object_qid.truthy <;>
      simp only [Bool.not_true, Bool.not_false, Bool.false_eq_true, if_false, if_true,
        List.map_cons, List.nodup_cons, List.mem_cons, not_or]
    · exact ⟨⟨hso h1 h2, hs h1⟩, ho h2, ih (i + 1)⟩
    · exact ⟨hs h1, ih (i + 1)⟩
    · exact ⟨ho h2, ih (i + 1)⟩
    · exact ih (i + 1)

/-- C2, on the colliding input: the subject of the first triplet lacks a qid and is
filed under the synthesized id `Berlin-0-s`; the subject of the second triplet, another
endpoint, is filed under the same id, and the four endpoints give three nodes. -/
theorem buildElements_synthesized_id_collides :
    (subjectEndpoint (collidingTriplets.getD 0 Triplet.blank) 0).qid = JsVal.undefined ∧
    subjectId (collidingTriplets.getD 0 Triplet.blank) 0 = "Berlin-0-s" ∧
    subjectId (collidingTriplets.getD 1 Triplet.blank) 1 = "Berlin-0-s" ∧
    nodeIds (buildElements bareEnv collidingTriplets) = ["Berlin-0-s", "Q183", "Q142"] := by
  decide

/-- C3: when no triplet of the input carries a subject qid or an object qid,
`buildElements` returns exactly two nodes per triplet, with pairwise distinct ids: the
node ids are the synthesized subject id and object id of each triplet, in input order,
whatever the labels are. -/
theorem buildElements_without_qids (env : Env) (ts : List Triplet)
    (h : ∀ t ∈ ts, t.subject_qid.truthy = false ∧ t.object_qid.truthy = false) :
    (buildElements env ts).nodes.length = 2 * ts.length ∧
    (nodeIds (buildElements env ts)).Nodup ∧
    nodeIds (buildElements env ts) = endpointIds ts ∧
    ∀ i t, ts[i]? = some t →
      (nodeIds (buildElements env ts))[2 * i]?
        = some (t.subject.toStr ++ "-" ++ toString i ++ "-s") ∧
      (nodeIds (buildElements env ts))[2 * i + 1]?
        = some (t.object.toStr ++ "-" ++ toString i ++ "-o") := by
  have hnd : (endpointIds ts).Nodup := nodup_endpointIdsFrom ts 0 h
  have hids : nodeIds (buildElements env ts) = endpointIds ts := by
    rw [nodeIds_eq_firstOccurrences, firstOccurrences_of_nodup _ hnd]
  refine ⟨?_, ?_, hids, ?_⟩
  · have : (nodeIds (buildElements env ts)).length = 2 * ts.length := by
      rw [hids, endpointIds, length_endpointIdsFrom]
    simpa [nodeIds] using this
  · rw [hids]
    exact hnd
  · intro i t hit
    have ht := h t (List.getElem?_mem hit)
    have := endpointIdsFrom_getElem ts 0 i t hit
    rw [hids, endpointIds]
    rw [Nat.zero_add, subjectId_of_no_qid t i ht.1, objectId_of_no_qid t i ht.2] at this
    exact this

/-- C3, at an input: two triplets without qids, with repeated labels that hold hyphens
and digits, give four nodes. -/
theorem buildElements_without_qids_witness :
    (∀ t ∈ hyphenTriplets, t.subject_qid.truthy = false ∧ t.object_qid.truthy = false) ∧
    (buildElements bareEnv hyphenTriplets).nodes.length = 2 * hyphenTriplets.length ∧
    nodeIds (buildElements bareEnv hyphenTriplets)
      = ["a-1-0-s", "a-0-o", "a-1-s", "a-1-1-o"] :=
  ⟨by decide,
   (buildElements_without_qids bareEnv hyphenTriplets (by decide)).1,
   by decide⟩

/-- C4: `buildElements` returns one edge per input triplet, in input order, and merges
none: there are as many edges as triplets, and edge `i` belongs to triplet `i`.  Its id
is `e-<i>`.  Its source is the subject qid when that is a non-empty string, and
otherwise the text of the subject (`undefined` or `null` when it is no string), a
hyphen, the index and `-s`; its target likewise from the object, with `-o`.  Source and
target are ids of returned nodes.  Its label is the predicate when that is a string and
the empty string when the predicate is absent. -/
theorem buildElements_edges (env : Env) (ts : List Triplet) :
    (buildElements env ts).edges.length = ts.length ∧
    (buildElements env ts).edges = ts.enum.map (fun p =>
      { data :=
          { id := "e-" ++ toString p.1
            source := subjectId p.2 p.1
            target := objectId p.2 p.1
            label := p.2.predicate.orElse "" } }) ∧
    ∀ (i : Nat) (t : Triplet), ts[i]? = some t →
      ∃ e : Edge, (buildElements env ts).edges[i]? = some e ∧
        e.data.id = "e-" ++ toString i ∧
        (∀ q, t.subject_qid = JsVal.str q → q ≠ "" → e.data.source = q) ∧
        (t.subject_qid = JsVal.undefined ∨ t.subject_qid = JsVal.null ∨
            t.subject_qid = JsVal.str "" →
          (∀ s, t.subject = JsVal.str s → e.data.source = s ++ "-" ++ toString i ++ "-s") ∧
          (t.subject = JsVal.undefined →
            e.data.source = "undefined" ++ "-" ++ toString i ++ "-s") ∧
          (t.subject = JsVal.null → e.data.source = "null" ++ "-" ++ toString i ++ "-s")) ∧
        (∀ q, t.object_qid = JsVal.str q → q ≠ "" → e.data.target = q) ∧
        (t.object_qid = JsVal.undefined ∨ t.object_qid = JsVal.null ∨
            t.object_qid = JsVal.str "" →
          (∀ s, t.object = JsVal.str s → e.data.target = s ++ "-" ++ toString i ++ "-o") ∧
          (t.object = JsVal.undefined →
            e.data.target = "undefined" ++ "-" ++ toString i ++ "-o") ∧
          (t.object = JsVal.null → e.data.target = "null" ++ "-" ++ toString i ++ "-o")) ∧
        e.data.source ∈ nodeIds (buildElements env ts) ∧
        e.data.target ∈ nodeIds (buildElements env ts) ∧
        (∀ s, t.predicate = JsVal.str s → e.data.label = s) ∧
        (t.predicate = JsVal.undefined ∨ t.predicate = JsVal.null → e.data.label = "") := by
  have he : (buildElements env ts).edges = ts.enum.map (fun p => mkEdge p.2 p.1) := by
    rw [edges_buildElements, edgesFrom_eq_enumFrom, List.enum]
  refine ⟨?_, he, ?_⟩
  · rw [he]
    simp
  · intro i t hit
    have hget : (buildElements env ts).edges[i]? = some (mkEdge t i) := by
      have := edgesFrom_getElem ts 0 i t hit
      rw [Nat.zero_add] at this
      rw [edges_buildElements]
      exact this
    have hmem : mkEdge t i ∈ edgesFrom ts 0 := by
      rw [← edges_buildElements env]
      exact List.getElem?_mem hget
    have hnodes := source_target_mem_endpointIds ts 0 (mkEdge t i) hmem
    refine ⟨mkEdge t i, hget, rfl, ?_, ?_, ?_, ?_, ?_, ?_, ?_, ?_⟩
    · intro q hq hne
      show subjectId t i = q
      simp [subjectId, hq, JsVal.orElse, hne]
    · intro habs
      have hs : subjectId t i = t.subject.toStr ++ "-" ++ toString i ++ "-s" := by
        rcases habs with h | h | h <;> simp [subjectId, h, JsVal.orElse]
      refine ⟨?_, ?_, ?_⟩
      · intro s h
        show subjectId t i = _
        rw [hs, h]
        rfl
      · intro h
        show subjectId t i = _
        rw [hs, h]
        rfl
      · intro h
        show subjectId t i = _
        rw [hs, h]
        rfl
    · intro q hq hne
      show objectId t i = q
      simp [objectId, hq, JsVal.orElse, hne]
    · intro habs
      have hs : objectId t i = t.object.toStr ++ "-" ++ toString i ++ "-o" := by
        rcases habs with h | h | h <;> simp [objectId, h, JsVal.orElse]
      refine ⟨?_, ?_, ?_⟩
      · intro s h
        show objectId t i = _
        rw [hs, h]
        rfl
      · intro h
        show objectId t i = _
        rw [hs, h]
        rfl
      · intro h
        show objectId t i = _
        rw [hs, h]
        rfl
    · rw [nodeIds_eq_firstOccurrences, mem_firstOccurrences]
      exact hnodes.1
    · rw [nodeIds_eq_firstOccurrences, mem_firstOccurrences]
      exact hnodes.2
    · intro s h
      show t.predicate.orElse "" = s
      rw [h]
      by_cases hs : s = ""
      · subst hs
        rfl
      · simp [JsVal.orElse, hs]
    · intro h
      show t.predicate.orElse "" = ""
      rcases h with h | h <;> simp [h, JsVal.orElse]

/-- C4, at inputs: the Paris triplet given twice yields two edges `e-0` and `e-1` from
`Q90` to `Q142` labelled `capitalOf`, unmerged; two triplets without qids and without
predicates yield edges between the synthesized ids, with empty labels. -/
theorem buildElements_edges_witness :
    [parisTriplet, parisTriplet][1]? = some parisTriplet ∧
    (∃ e : Edge, (buildElements bareEnv [parisTriplet, parisTriplet]).edges[1]? = some e ∧
      e.data.id = "e-" ++ toString 1 ∧ e.data.source = "Q90" ∧ e.data.target = "Q142" ∧
      e.data.label = "capitalOf") ∧
    (buildElements bareEnv [parisTriplet, parisTriplet]).edges
      = [ { data := { id := "e-0", source := "Q90", target := "Q142", label := "capitalOf" } },
          { data := { id := "e-1", source := "Q90", target := "Q142", label := "capitalOf" } } ] ∧
    (buildElements bareEnv hyphenTriplets).edges
      = [ { data := { id := "e-0", source := "a-1-0-s", target := "a-0-o", label := "" } },
          { data := { id := "e-1", source := "a-1-s", target := "a-1-1-o", label := "" } } ] :=
  ⟨by decide,
   match (buildElements_edges bareEnv [parisTriplet, parisTriplet]).2.2 1 parisTriplet
      (by decide) with
   | ⟨e, h0, h1, h2, _, h3, _, _, _, h4, _⟩ =>
     ⟨e, h0, h1, h2 "Q90" rfl (by decide), h3 "Q142" rfl (by decide), h4 "capitalOf" rfl⟩,
   by decide, by decide⟩

/-- C5: the ids of the nodes returned by `buildElements` are pairwise distinct and stand
in first-seen order: they are the endpoint id sequence (subject id 0, object id 0,
subject id 1, ...) with every repeat of an earlier id removed. -/
theorem buildElements_node_ids (env : Env) (ts : List Triplet) :
    (nodeIds (buildElements env ts)).Nodup ∧
    nodeIds (buildElements env ts) = firstOccurrences (endpointIds ts) := by
  rw [nodeIds_eq_firstOccurrences]
  exact ⟨nodup_firstOccurrences _, rfl⟩

/-- C6: `layoutFor n` is the grid layout (fit, padding 50) exactly when `n ≤ 2`, the
circle layout (fit, padding 50) exactly when `3 ≤ n ≤ 4`, and the cose layout (not
animated) exactly when `5 ≤ n`; so 1 and 2 give grid, 3 and 4 give circle, 5 gives
cose. -/
theorem layoutFor_tiers (n : Nat) :
    (layoutFor n = gridLayout ↔ n ≤ 2) ∧
    (layoutFor n = circleLayout ↔ 3 ≤ n ∧ n ≤ 4) ∧
    (layoutFor n = coseLayout ↔ 5 ≤ n) ∧
    ((layoutFor n).name = "grid" ∨ (layoutFor n).name = "circle" ∨
      (layoutFor n).name = "cose") ∧
    (gridLayout.name = "grid" ∧ gridLayout.fit = true ∧ gridLayout.padding = 50) ∧
    (circleLayout.name = "circle" ∧ circleLayout.fit = true ∧ circleLayout.padding = 50) ∧
    (coseLayout.name = "cose" ∧ coseLayout.animate = some false) ∧
    layoutFor 1 = gridLayout ∧ layoutFor 2 = gridLayout ∧ layoutFor 3 = circleLayout ∧
    layoutFor 4 = circleLayout ∧ layoutFor 5 = coseLayout := by
  have hgc : gridLayout ≠ circleLayout := fun h =>
    absurd (congrArg LayoutSpec.name h) (by decide)
  have hgs : gridLayout ≠ coseLayout := fun h =>
    absurd (congrArg LayoutSpec.name h) (by decide)
  have hcs : circleLayout ≠ coseLayout := fun h =>
    absurd (congrArg LayoutSpec.name h) (by decide)
  refine ⟨?_, ?_, ?_, ?_, ⟨rfl, rfl, rfl⟩, ⟨rfl, rfl, rfl⟩, ⟨rfl, rfl⟩, rfl, rfl, rfl, rfl, rfl⟩
  · unfold layoutFor
    split_ifs with h2 h4
    · exact ⟨fun _ => h2, fun _ => rfl⟩
    · exact ⟨fun h => absurd h hgc.symm, fun h => absurd h h2⟩
    · exact ⟨fun h => absurd h hgs.symm, fun h => absurd h h2⟩
  · unfold layoutFor
    split_ifs with h2 h4
    · exact ⟨fun h => absurd h hgc, fun h => by omega⟩
    · exact ⟨fun _ => by omega, fun _ => rfl⟩
    · exact ⟨fun h => absurd h hcs.symm, fun h => by omega⟩
  · unfold layoutFor
    split_ifs with h2 h4
    · exact ⟨fun h => absurd h hgs, fun h => by omega⟩
    · exact ⟨fun h => absurd h hcs, fun h => by omega⟩
    · exact ⟨fun _ => by omega, fun _ => rfl⟩
  · unfold layoutFor
    split_ifs with h2 h4
    · exact Or.inl rfl
    · exact Or.inr (Or.inl rfl)
    · exact Or.inr (Or.inr rfl)

/-- C7: from every prior state of the page, `renderGraph` called with an empty array, or
with something that is not an array, ends with no live instance (`cy` is null and the
instance that was live, if any, has been destroyed), creates no instance, leaves the
export button (when the page has one) disabled, shows the empty placeholder, and has
cleared the graph container (when the page has one). -/
theorem renderGraph_empty (env : Env) (input : RenderInput) (p : Page)
    (h : input.toTriplets = []) :
    (renderGraph env input p).cy = none ∧
    (renderGraph env input p).destroyed = p.destroyed ++ p.cy.toList ∧
    (renderGraph env input p).created = p.created ∧
    (renderGraph env input p).exportButton = p.exportButton.map (fun _ => true) ∧
    (renderGraph env input p).emptyStateHidden = false ∧
    (renderGraph env input p).graphEl = p.graphEl.map (fun _ => "") ∧
    (renderGraph env input p).latestTriplets = [] := by
  obtain ⟨cy, latest, graphEl, exportButton, hidden, destroyed, created, errors⟩ := p
  cases cy <;> cases graphEl <;> cases exportButton <;>
    simp [renderGraph, destroyGraph, setExportAvailability, h]

/-- C7, at an input: an empty render after the render of the Paris example. -/
theorem renderGraph_empty_witness :
    RenderInput.other.toTriplets = [] ∧
    activePage.cy.isSome = true ∧ activePage.exportButton = some false ∧
    (renderGraph bareEnv RenderInput.other activePage).cy = none ∧
    (renderGraph bareEnv RenderInput.other activePage).exportButton = some true ∧
    (renderGraph bareEnv RenderInput.other activePage).emptyStateHidden = false :=
  have h := renderGraph_empty bareEnv RenderInput.other activePage rfl
  ⟨rfl, rfl, rfl, h.1, h.2.2.2.1, h.2.2.2.2.1⟩

/-- C8, against the claim: the type `org` is not one of the names the claim lists, so
the claim gives it the default node colour; `colorFor` gives it the organisation
colour. -/
theorem colorFor_org_not_default :
    colorFor themedEnv (JsVal.str "org") = "#444444" ∧
    getCssColor themedEnv (claimedVariable (themedEnv.toLowerCase "org")) "#38bdf8"
      = "#111111" ∧
    colorFor themedEnv (JsVal.str "org")
      ≠ getCssColor themedEnv (claimedVariable (themedEnv.toLowerCase "org")) "#38bdf8" := by
  decide

/-- The type `constructor` finds the inherited member of the palette object, not a custom
property: on the themed page it gets the hard-coded fallback, not the node colour of
the theme. -/
theorem colorFor_inherited_name :
    colorFor themedEnv (JsVal.str "Constructor") = "#38bdf8" ∧
    getCssColor themedEnv "--node" "#38bdf8" = "#111111" := by
  decide

/-- C8, amended: `colorFor` is never empty; an absent or empty type gets the default
node colour; a non-empty type whose lower-case form is not a name inherited from
`Object.prototype` gets the colour of its category, where person/human is the human colour,
country/gpe the country colour, organization/organisation/org the organisation colour
and anything else the default node colour; two non-empty types with the same
lower-case form get the same colour; and a colour is the trimmed theme value when
there is one and the fallback otherwise. -/
theorem colorFor_category (env : Env) :
    (∀ type, colorFor env type ≠ "") ∧
    (∀ type, type.truthy = false → colorFor env type = getCssColor env "--node" "#38bdf8") ∧
    (∀ t, t ≠ "" → env.toLowerCase t ∉ inheritedNames →
      colorFor env (JsVal.str t)
        = getCssColor env (categoryVariable (env.toLowerCase t)) "#38bdf8") ∧
    (∀ t u, t ≠ "" → u ≠ "" → env.toLowerCase t = env.toLowerCase u →
      colorFor env (JsVal.str t) = colorFor env (JsVal.str u)) ∧
    (∀ v fb, trim (env.getPropertyValue v) = "" → getCssColor env v fb = fb) ∧
    (∀ v fb, trim (env.getPropertyValue v) ≠ "" →
      getCssColor env v fb = trim (env.getPropertyValue v)) := by
  refine ⟨?_, ?_, ?_, ?_, ?_, ?_⟩
  · intro type
    cases type with
    | undefined => exact getCssColor_ne_empty env _ _ (by decide)
    | null => exact getCssColor_ne_empty env _ _ (by decide)
    | str t =>
      unfold colorFor
      by_cases ht : t = ""
      · simpa [ht] using getCssColor_ne_empty env "--node" "#38bdf8" (by decide)
      · simp only [ht, if_false]
        cases palette (env.toLowerCase t) with
        | own key => exact getCssColor_ne_empty env key "#38bdf8" (by decide)
        | inherited =>
          show ("#38bdf8" : String) ≠ ""
          decide
        | missing => exact getCssColor_ne_empty env "--node" "#38bdf8" (by decide)
  · intro type h
    cases type with
    | undefined => rfl
    | null => rfl
    | str t =>
      simp only [JsVal.truthy, decide_eq_false_iff_not, not_not] at h
      simp [colorFor, h]
  · intro t ht h1
    rcases palette_eq_categoryVariable _ h1 with h | ⟨h, hv⟩
    · simp [colorFor, ht, h]
    · simp [colorFor, ht, h, hv]
  · intro t u ht hu h
    simp [colorFor, ht, hu, h]
  · intro v fb h
    simp [getCssColor, h]
  · intro v fb h
    simp [getCssColor, h]

/-- C8, amended, at inputs: `ORG` and `Person` on the themed page, and a page without
theme. -/
theorem colorFor_category_witness :
    colorFor themedEnv (JsVal.str "ORG")
      = getCssColor themedEnv (categoryVariable (themedEnv.toLowerCase "ORG")) "#38bdf8" ∧
    getCssColor themedEnv (categoryVariable (themedEnv.toLowerCase "ORG")) "#38bdf8"
      = "#444444" ∧
    colorFor themedEnv (JsVal.str "Person") = colorFor themedEnv (JsVal.str "PERSON") ∧
    getCssColor bareEnv "--node" "#38bdf8" = "#38bdf8" :=
  ⟨(colorFor_category themedEnv).2.2.1 "ORG" (by decide) (by decide),
   by decide,
   (colorFor_category themedEnv).2.2.2.1 "Person" "PERSON" (by decide) (by decide) (by decide),
   (colorFor_category bareEnv).2.2.2.2.1 "--node" "#38bdf8" (by decide)⟩

/-- C9: when a diagram is live and the snapshot succeeds, the link `exportGraph` clicks
is named `knowledge-graph-`, then the timestamp with every colon and every full stop
replaced by a hyphen, then `.png`.  The sanitized timestamp is as long as the
timestamp and has neither a colon nor a full stop, so the only full stop of the name
is that of the extension. -/
theorem exportGraph_filename (env : Env) (png : Instance → PngOptions → Except String String)
    (isoNow : String) (p : Page) (inst : Instance) (dataUrl : String)
    (hcy : p.cy = some inst)
    (hpng : png inst { full := true, scale := 2
                       bg := (JsVal.str (getCssColor env "--bg" "#0f172a")).orElse "#0f172a" }
      = Except.ok dataUrl) :
    (exportGraph env png isoNow p).2
      = some { href := dataUrl
               download := "knowledge-graph-" ++ replaceColonsAndDots isoNow ++ ".png" } ∧
    (replaceColonsAndDots isoNow).data
      = isoNow.data.map (fun c => if c = ':' ∨ c = '.' then '-' else c) ∧
    (replaceColonsAndDots isoNow).length = isoNow.length ∧
    ':' ∉ (replaceColonsAndDots isoNow).data ∧
    '.' ∉ (replaceColonsAndDots isoNow).data ∧
    ("knowledge-graph-" ++ replaceColonsAndDots isoNow ++ ".png").data.count '.' = 1 := by
  have hcolon : ':' ∉ (replaceColonsAndDots isoNow).data := by
    simp only [replaceColonsAndDots, List.mem_map, not_exists, not_and]
    intro c _
    by_cases hc : c = ':' ∨ c = '.'
    · simp only [hc, if_true]
      decide
    · simp only [hc, if_false]
      exact fun h => hc (Or.inl h)
  have hdot : '.' ∉ (replaceColonsAndDots isoNow).data := by
    simp only [replaceColonsAndDots, List.mem_map, not_exists, not_and]
    intro c _
    by_cases hc : c = ':' ∨ c = '.'
    · simp only [hc, if_true]
      decide
    · simp only [hc, if_false]
      exact fun h => hc (Or.inr h)
  refine ⟨?_, rfl, ?_, hcolon, hdot, ?_⟩
  · simp [exportGraph, hcy, hpng, downloadName]
  · show (List.map _ isoNow.data).length = isoNow.data.length
    exact List.length_map _ _
  · have h1 : ("knowledge-graph-" : String).data.count '.' = 0 := by decide
    have h2 : (".png" : String).data.count '.' = 1 := by decide
    simp only [String.data_append, List.count_append, h1, h2,
      List.count_eq_zero_of_not_mem hdot]

/-- C9, at an input: an export of the Paris example at a given instant. -/
theorem exportGraph_filename_witness :
    activePage.cy = some (createInstance bareEnv (buildElements bareEnv [parisTriplet])) ∧
    (exportGraph bareEnv okPng "2024-05-06T07:08:09.123Z" activePage).2
      = some { href := "data:image/png;base64,AAAA"
               download := "knowledge-graph-"
                 ++ replaceColonsAndDots "2024-05-06T07:08:09.123Z" ++ ".png" } ∧
    "knowledge-graph-" ++ replaceColonsAndDots "2024-05-06T07:08:09.123Z" ++ ".png"
      = "knowledge-graph-2024-05-06T07-08-09-123Z.png" :=
  ⟨rfl,
   (exportGraph_filename bareEnv okPng "2024-05-06T07:08:09.123Z" activePage
      (createInstance bareEnv (buildElements bareEnv [parisTriplet]))
      "data:image/png;base64,AAAA" rfl rfl).1,
   by decide⟩

/-- C10: the result of `buildElements` is referentially closed: the source and the
target of every edge are each the id of exactly one returned node. -/
theorem buildElements_referentially_closed (env : Env) (ts : List Triplet) :
    ∀ e ∈ (buildElements env ts).edges,
      ((buildElements env ts).nodes.filter
        (fun n => decide (n.data.id = e.data.source))).length = 1 ∧
      ((buildElements env ts).nodes.filter
        (fun n => decide (n.data.id = e.data.target))).length = 1 := by
  intro e he
  rw [edges_buildElements] at he
  have hm := source_target_mem_endpointIds ts 0 e he
  have hnd : (nodeIds (buildElements env ts)).Nodup := by
    rw [nodeIds_eq_firstOccurrences]
    exact nodup_firstOccurrences _
  have hs : e.data.source ∈ nodeIds (buildElements env ts) := by
    rw [nodeIds_eq_firstOccurrences, mem_firstOccurrences]
    exact hm.1
  have ht : e.data.target ∈ nodeIds (buildElements env ts) := by
    rw [nodeIds_eq_firstOccurrences, mem_firstOccurrences]
    exact hm.2
  rw [filter_id_length, filter_id_length]
  exact ⟨List.count_eq_one_of_mem hnd hs, List.count_eq_one_of_mem hnd ht⟩

/-- C10, at an input: the one edge of the Paris example points at two existing nodes. -/
theorem buildElements_referentially_closed_witness :
    mkEdge parisTriplet 0 ∈ (buildElements bareEnv [parisTriplet]).edges ∧
    ((buildElements bareEnv [parisTriplet]).nodes.filter
      (fun n => decide (n.data.id = "Q90"))).length = 1 ∧
    ((buildElements bareEnv [parisTriplet]).nodes.filter
      (fun n => decide (n.data.id = "Q142"))).length = 1 :=
  ⟨by decide,
   buildElements_referentially_closed bareEnv [parisTriplet] (mkEdge parisTriplet 0) (by decide)⟩

end ERVirtualizer
